import Mathlib

/-!
Verification of the multipart/form-data decoder in `src/multipart.js`
(functions `processBody`, `splitContentParts`, `parseContent`).

Buffers and JS strings are modelled as lists of byte values (`List Nat`);
all inputs of interest are ASCII, where the JS string/buffer conversions
are the identity on byte values.  JS `Buffer.indexOf`, `Buffer.slice`
(with its negative-index wrap-around), `String.split`, `toLowerCase`,
object-property assignment (last write wins) and the two attribute
regexes are each modelled by an executable definition below.
-/

/-- Bytes of a buffer or (ASCII) JS string. -/
abbrev Bytes := List Nat

/-- Convert an ASCII string literal to its byte list. -/
def str2bytes (s : String) : Bytes := s.data.map Char.toNat

/-- Bytes 0x0D 0x0A, the constant `CRLF` of the source. -/
def CRLF2 : Bytes := [13, 10]

/-- Bytes 0x0D 0x0A 0x0D 0x0A, the constant `DOUBLE_CRLF` of the source. -/
def DOUBLE_CRLF : Bytes := [13, 10, 13, 10]

/-- Bytes of the header separator `": "` used by `line.split(': ')`. -/
def COLON_SP : Bytes := [58, 32]

/-- Model of JS `hay.indexOf(needle, start)` on buffers: the least index
`i ≥ start` at which `needle` occurs in `hay`, `none` when there is none
(JS returns `-1` there; call sites turn `none` back into `-1`). -/
def indexOfFrom (hay needle : Bytes) (start : Nat) : Option Nat :=
  (List.range (hay.length + 1)).find? fun i =>
    decide (start ≤ i) && needle.isPrefixOf (hay.drop i)

/-- Model of JS `Buffer.prototype.slice(s, e)` (= `subarray`): negative
indices count from the end, indices are clamped to `[0, length]`, and an
empty buffer results when the normalized start is not below the end. -/
def jsSlice (l : Bytes) (s e : Int) : Bytes :=
  let n := l.length
  let s' : Nat := if s < 0 then ((n : Int) + s).toNat else min s.toNat n
  let e' : Nat := if e < 0 then ((n : Int) + e).toNat else min e.toNat n
  (l.drop s').take (e' - s')

/-- Fuel-driven worker for `splitOnSeq`; the fuel `s.length + 1` supplied
by `splitOnSeq` can never run out for the non-empty separators used here,
since each step removes at least `needle.length ≥ 1` bytes. -/
def splitOnSeqFuel (needle : Bytes) : Nat → Bytes → List Bytes
  | 0, s => [s]
  | fuel + 1, s =>
    match indexOfFrom s needle 0 with
    | none => [s]
    | some i => s.take i :: splitOnSeqFuel needle fuel (s.drop (i + needle.length))

/-- Model of JS `String.prototype.split(sep)` for a non-empty separator:
split at every non-overlapping occurrence, scanning left to right,
keeping empty pieces. -/
def splitOnSeq (s needle : Bytes) : List Bytes :=
  splitOnSeqFuel needle (s.length + 1) s

/-- Model of JS `toLowerCase` on an ASCII byte. -/
def toLowerByte (c : Nat) : Nat := if 65 ≤ c ∧ c ≤ 90 then c + 32 else c

/-- Header map: JS object keyed by header name; a stored `none` models a
JS `undefined` value (a `name: value` line with no `": "` separator). -/
abbrev Headers := List (Bytes × Option Bytes)

/-- Model of JS object property assignment `m[k] = v`: overwrite in place
when the key exists, append otherwise. -/
def upsert {β : Type} : List (Bytes × β) → Bytes → β → List (Bytes × β)
  | [], k, v => [(k, v)]
  | (k', v') :: rest, k, v =>
    if k' = k then (k, v) :: rest else (k', v') :: upsert rest k v

/-- Lookup of a key in an association list, distinguishing an absent key
(`none`) from a present one (`some v`). -/
def lookupKey {β : Type} : List (Bytes × β) → Bytes → Option β
  | [], _ => none
  | (k', v') :: rest, k => if k' = k then some v' else lookupKey rest k

/-- Model of reading `headers[k]` in JS: both an absent key and a stored
`undefined` value read back as `undefined` (here `none`). -/
def getHeader (hs : Headers) (k : Bytes) : Option Bytes :=
  (lookupKey hs k).join

/-- Attempted match of the regex `attr"([^;\x22]+)"` anchored at position
`i` of `s`, where `pat` is the literal prefix (e.g. bytes of `name="`):
the capture is the maximal non-empty run of bytes other than `"` (0x22)
and `;` (0x3B) after `pat`, which must be followed by a closing `"`. -/
def attrCaptureAt (pat s : Bytes) (i : Nat) : Option Bytes :=
  let rest := s.drop i
  if pat.isPrefixOf rest then
    let after := rest.drop pat.length
    let run := after.takeWhile fun c => !(c == 34 || c == 59)
    if run ≠ [] ∧ (after.drop run.length).head? = some 34 then some run
    else none
  else none

/-- Model of `/pat"..."/.exec(s)`: the capture at the leftmost position
where the whole pattern matches, scanning positions left to right as the
JS regex engine does. -/
def matchAttr (pat s : Bytes) : Option Bytes :=
  (List.range (s.length + 1)).findSome? fun i => attrCaptureAt pat s i

/-- Model of `exec` applied to a possibly-undefined header value: `exec`
on `undefined` coerces it to the string "undefined", which contains no
quote, so neither attribute pattern can match there. -/
def execAttr (pat : Bytes) (o : Option Bytes) : Option Bytes :=
  o.bind fun s => matchAttr pat s

/-- Form value attached to one part name: either a text field (the body
bytes, returned by `body.toString()` in the source) or a file record
`{filename, contentType, data}` with the raw body bytes. -/
inductive FormValue : Type
  | field (text : Bytes)
  | file (filename contentType data : Bytes)
  deriving DecidableEq, Repr

/-- Form data built by `processBody`: a JS object from part name to
value, last write wins. -/
abbrev FormData := List (Bytes × FormValue)

deriving instance DecidableEq for Except

/-- Bytes of the lower-cased header key `content-disposition`. -/
def contentDispositionKey : Bytes := str2bytes "content-disposition"

/-- Bytes of the lower-cased header key `content-type`. -/
def contentTypeKey : Bytes := str2bytes "content-type"

/-- Literal prefix bytes of the regex `/name="([^;\x22]+)"/`. -/
def NAME_PAT : Bytes := str2bytes "name=\""

/-- Literal prefix bytes of the regex `/filename="([^;\x22]+)"/`. -/
def FILENAME_PAT : Bytes := str2bytes "filename=\""

/-- Bytes of the default MIME type `application/octet-stream`. -/
def OCTET_STREAM : Bytes := str2bytes "application/octet-stream"

/-- Error message of the only error `parseContent` can raise. -/
def noNameError : String := "No name in multipart content header"

/-- Header-block parsing of `parseContent` (source lines 149–155): split
the head on CRLF; for each line, split on `": "`, lower-case the part
before the first separator as key, store the piece between the first and
second separator as value (`undefined`, i.e. `none`, when there is no
separator), later lines overwriting earlier ones with the same key. -/
def jsHeaders (head : Bytes) : Headers :=
  (splitOnSeq head CRLF2).foldl
    (fun hs line =>
      let pieces := splitOnSeq line COLON_SP
      let key := (pieces.headD []).map toLowerByte
      let value := pieces[1]?
      upsert hs key value)
    []

/-- Content-type selection of `parseContent` (source lines 168–171): the
`content-type` header value, with a missing header, an `undefined` value
or an empty value (all falsy in JS) replaced by the default. -/
def contentTypeOf (hs : Headers) : Bytes :=
  match getHeader hs contentTypeKey with
  | none => OCTET_STREAM
  | some v => if v = [] then OCTET_STREAM else v

/-- Classification step of `parseContent` (source lines 157–177): match
the name attribute in the `content-disposition` value (failing with the
source's error string when there is no match), then build a file record
when the filename attribute matches and a text field otherwise. -/
def classifyJS (hs : Headers) (body : Bytes) : Except String (Bytes × FormValue) :=
  let cd := getHeader hs contentDispositionKey
  match execAttr NAME_PAT cd with
  | none => .error noNameError
  | some name =>
    match execAttr FILENAME_PAT cd with
    | some filename => .ok (name, .file filename (contentTypeOf hs) body)
    | none => .ok (name, .field body)

/-- Model of `parseContent(buffer, callback)` (source lines 139–178):
`index` is the JS `buffer.indexOf(DOUBLE_CRLF)` result (−1 when absent),
head is `buffer.slice(0, index)`, body is
`buffer.slice(index + 4, buffer.length - 4)`, then headers are parsed
and the part classified.  The callback is invoked exactly once; its
outcome is the returned `Except` value. -/
def parseContent (buffer : Bytes) : Except String (Bytes × FormValue) :=
  let index : Int := match indexOfFrom buffer DOUBLE_CRLF 0 with
    | some i => (i : Int)
    | none => -1
  let head := jsSlice buffer 0 index
  let body := jsSlice buffer (index + 4) ((buffer.length : Int) - 4)
  classifyJS (jsHeaders head) body

/-- Fuel-driven model of the scanning loop of `splitContentParts` (source
lines 124–128): while the next occurrence `e` of the boundary at or after
`start` satisfies `e > start`, emit `buffer.slice(start, e)` and resume
at `e + boundary.length`.  Returns `none` when the fuel runs out; the
fuel `buffer.length + 1` used below never does (proved in
`splitLoopFuel_isSome`). -/
def splitLoopFuel (buffer boundary : Bytes) : Nat → Nat → Option (List Bytes)
  | 0, _ => none
  | fuel + 1, start =>
    match indexOfFrom buffer boundary start with
    | none => some []
    | some e =>
      if start < e then
        match splitLoopFuel buffer boundary fuel (e + boundary.length) with
        | none => none
        | some rest => some ((buffer.drop start).take (e - start) :: rest)
      else some []

/-- Model of `splitContentParts(buffer, boundary)` (source lines
116–130): the initial scan position is
`buffer.indexOf('--' + boundary) + boundary.length + 2` (so
`boundary.length + 1` when the delimiter is absent and `indexOf`
returns −1), then the loop above.  The slice taken in the loop only runs
with `0 ≤ start < e ≤ buffer.length`, where `Buffer.slice` is plain
drop/take. -/
def splitContentPartsOpt (buffer boundary : Bytes) : Option (List Bytes) :=
  let start : Nat :=
    match indexOfFrom buffer ([45, 45] ++ boundary) 0 with
    | some i => i + boundary.length + 2
    | none => boundary.length + 1
  splitLoopFuel buffer boundary (buffer.length + 1) start

/-- The part list returned by `splitContentParts`. -/
def splitContentParts (buffer boundary : Bytes) : List Bytes :=
  (splitContentPartsOpt buffer boundary).getD []

/-- Model of `processBody(buffer, boundary, callback)` (source lines
93–106) as the ordered list of callback invocations it performs: for
each part, a failing `parseContent` invokes the outer callback with the
error (and the loop keeps going), a successful one stores the pair into
`formData`; after the loop the callback is always invoked once more with
`(false, formData)`. -/
def processBody (buffer boundary : Bytes) : List (Except String FormData) :=
  let parts := splitContentParts buffer boundary
  let step := parts.foldl
    (fun (acc : List (Except String FormData) × FormData) content =>
      match parseContent content with
      | .error e => (acc.1 ++ [.error e], acc.2)
      | .ok kv => (acc.1, upsert acc.2 kv.1 kv.2))
    ([], [])
  step.1 ++ [.ok step.2]

/-- Modelled from the spec: §4.2's splitter contract for the body block
in isolation — the body excludes everything up to and including the
CRLF CRLF separator and exactly one trailing CRLF (two bytes) of framing
at the tail, nothing more and nothing less.  Used only to compare the
spec's wording with what `parseContent` actually slices. -/
def specSplitBodyOf (p : Bytes) : Option Bytes :=
  (indexOfFrom p DOUBLE_CRLF 0).map fun i =>
    let c := p.drop (i + 4)
    c.take (c.length - 2)

/-- Basic bounds of a successful `indexOfFrom` search: the hit is at or
after `start` and the needle fits inside the haystack there. -/
theorem indexOfFrom_some {hay needle : Bytes} {start i : Nat}
    (h : indexOfFrom hay needle start = some i) :
    start ≤ i ∧ i + needle.length ≤ hay.length := by
  have hp := List.find?_some h
  have hm := List.mem_of_find?_eq_some h
  rw [List.mem_range] at hm
  rw [Bool.and_eq_true, decide_eq_true_eq] at hp
  obtain ⟨h1, h2⟩ := hp
  rw [ List.isPrefixOf_iff_prefix] at h2
  have h3 := h2.length_le
  rw [List.length_drop] at h3
  omega

/-- One-step unfolding of the scanning loop at positive fuel. -/
theorem splitLoopFuel_succ (buffer boundary : Bytes) (fuel start : Nat) :
    splitLoopFuel buffer boundary (fuel + 1) start =
      match indexOfFrom buffer boundary start with
      | none => some []
      | some e =>
        if start < e then
          match splitLoopFuel buffer boundary fuel (e + boundary.length) with
          | none => none
          | some rest => some ((buffer.drop start).take (e - start) :: rest)
        else some [] := rfl

/-- The scanning loop of `splitContentParts` never exhausts the fuel
`buffer.length + 1`: every iteration moves the scan position strictly
forward by at least `boundary.length + 1` bytes while staying inside the
buffer. -/
theorem splitLoopFuel_isSome (buffer boundary : Bytes) (hb : boundary ≠ []) :
    ∀ fuel start, buffer.length ≤ fuel + start → 0 < fuel →
      ∃ ps, splitLoopFuel buffer boundary fuel start = some ps := by
  intro fuel
  induction fuel with
  | zero => intro start _ h0; exact absurd h0 (by omega)
  | succ f ih =>
    intro start hle _
    cases hidx : indexOfFrom buffer boundary start with
    | none => exact ⟨[], by rw [splitLoopFuel_succ, hidx]⟩
    | some e =>
      by_cases hlt : start < e
      · obtain ⟨he1, he2⟩ := indexOfFrom_some hidx
        have hblen : 1 ≤ boundary.length := by
          cases boundary with
          | nil => exact absurd rfl hb
          | cons a l => simp
        cases f with
        | zero => exact absurd hle (by omega)
        | succ f' =>
          obtain ⟨rest, hrest⟩ := ih (e + boundary.length) (by omega) (by omega)
          refine ⟨(buffer.drop start).take (e - start) :: rest, ?_⟩
          rw [splitLoopFuel_succ, hidx]
          simp only [hlt, if_true, hrest]
      · exact ⟨[], by rw [splitLoopFuel_succ, hidx]; simp only [hlt, if_false]⟩

/-- Characterization of `jsSlice` at non-negative indices: it is plain
drop-then-take, the clamping of out-of-range indices being absorbed by
the truncation that `drop` and `take` already perform. -/
theorem jsSlice_nat (l : Bytes) (s e : Nat) :
    jsSlice l (s : Int) (e : Int) = (l.drop s).take (e - s) := by
  unfold jsSlice
  have hs : ¬ ((s : Int) < 0) := by omega
  have he : ¬ ((e : Int) < 0) := by omega
  simp only [hs, he, if_false, Int.toNat_ofNat]
  rcases le_or_lt s l.length with h1 | h1
  · rw [min_eq_left h1]
    rcases le_or_lt e l.length with h2 | h2
    · rw [min_eq_left h2]
    · rw [min_eq_right (le_of_lt h2)]
      have hlen : (l.drop s).length = l.length - s := List.length_drop s l
      rw [List.take_of_length_le (by omega), List.take_of_length_le (by omega)]
  · rw [min_eq_right (le_of_lt h1)]
    rw [List.drop_eq_nil_of_le (le_refl l.length),
      List.drop_eq_nil_of_le (le_of_lt h1)]
    simp

/-- Length of the appended test part used for the body-block theorem. -/
theorem partShape_length (h c : Bytes) :
    (h ++ DOUBLE_CRLF ++ c ++ [13, 10, 45, 45]).length =
      h.length + 4 + (c.length + 4) := by
  simp [DOUBLE_CRLF]
  omega

/-- Helper: the head slice `buffer.slice(0, index)` of `parseContent`
returns exactly the bytes before the separator on a part of the shape
emitted by the locator. -/
theorem jsSlice_head (h c : Bytes) :
    jsSlice (h ++ DOUBLE_CRLF ++ c ++ [13, 10, 45, 45]) 0 (h.length : Int) = h := by
  have h0 := jsSlice_nat (h ++ DOUBLE_CRLF ++ c ++ [13, 10, 45, 45]) 0 h.length
  simp only [Nat.cast_zero, List.drop_zero, Nat.sub_zero] at h0
  rw [h0, List.append_assoc, List.append_assoc]
  exact List.take_left h _

/-- Helper: the body slice `buffer.slice(index + 4, buffer.length - 4)`
of `parseContent` returns exactly the content bytes on a part of the
shape emitted by the locator (content followed by one CRLF and the two
dashes of the next delimiter). -/
theorem jsSlice_body (h c : Bytes) :
    jsSlice (h ++ DOUBLE_CRLF ++ c ++ [13, 10, 45, 45]) ((h.length : Int) + 4)
      (((h ++ DOUBLE_CRLF ++ c ++ [13, 10, 45, 45]).length : Int) - 4) = c := by
  have hlen := partShape_length h c
  have e1 : ((h.length : Int) + 4) = ((h.length + 4 : Nat) : Int) := by omega
  have e2 : (((h ++ DOUBLE_CRLF ++ c ++ [13, 10, 45, 45]).length : Int) - 4) =
      (((h ++ DOUBLE_CRLF ++ c ++ [13, 10, 45, 45]).length - 4 : Nat) : Int) := by
    omega
  rw [e1, e2, jsSlice_nat]
  have hassoc : h ++ DOUBLE_CRLF ++ c ++ [13, 10, 45, 45] =
      (h ++ DOUBLE_CRLF) ++ (c ++ [13, 10, 45, 45]) := by
    simp [List.append_assoc]
  have hdlen : h.length + 4 = (h ++ DOUBLE_CRLF).length := by simp [DOUBLE_CRLF]
  rw [hassoc, hdlen, List.drop_left]
  have hc : ((h ++ DOUBLE_CRLF) ++ (c ++ [13, 10, 45, 45])).length - 4 -
      (h ++ DOUBLE_CRLF).length = c.length := by
    rw [← hassoc, ← hdlen]; omega
  rw [hc]
  exact List.take_left c _

/-- Claim C1 (refuted by this evaluation): the decode is not fail-fast
and not atomic.  On a buffer whose second part lacks a
`Content-Disposition` name attribute, `processBody` invokes its callback
first with the error and then, unconditionally, once more with the
partial form data built from the first, well-formed part — the partial
mapping is returned to the caller. -/
theorem claimC1_theorem :
    processBody
      (str2bytes "--B\r\nContent-Disposition: form-data; name=\"a\"\r\n\r\nhi\r\n--B\r\nX: y\r\n\r\nzz\r\n--B--")
      (str2bytes "B") =
    [.error noNameError, .ok [(str2bytes "a", FormValue.field (str2bytes "hi"))]] := by
  decide

/-- Claim C2 (refuted by this evaluation): on a buffer in which the
delimiter bytes `--` + boundary occur nowhere, the decode does not fail
at all: `indexOf` returns −1, the scan loop never runs, and
`processBody` invokes its callback exactly once with success and an
empty form-data object. -/
theorem claimC2_theorem :
    indexOfFrom (str2bytes "hello") ([45, 45] ++ str2bytes "XYZ") 0 = none ∧
    processBody (str2bytes "hello") (str2bytes "XYZ") = [.ok []] := by
  decide

/-- Claim C3 (refuted by this evaluation): a raw part buffer containing
no CRLF CRLF separator is not rejected with any error; `indexOf`
returns −1, so the head becomes `slice(0, -1)` (all bytes but the last)
and the body `slice(3, length - 4)`, and the parse can even succeed,
producing a key/value pair. -/
theorem claimC3_theorem :
    indexOfFrom (str2bytes "Content-Disposition: form-data; name=\"a\"X")
      DOUBLE_CRLF 0 = none ∧
    parseContent (str2bytes "Content-Disposition: form-data; name=\"a\"X") =
      .ok (str2bytes "a",
        FormValue.field (str2bytes "tent-Disposition: form-data; name=")) := by
  decide

/-- Claim C4 (refuted by this evaluation): a non-empty header line with
no `": "` separator (here the line `garbage`) does not fail the header
parse; it is silently stored with an undefined value and the part still
parses successfully. -/
theorem claimC4_theorem :
    indexOfFrom (str2bytes "garbage") COLON_SP 0 = none ∧
    parseContent
      (str2bytes "Content-Disposition: form-data; name=\"a\"\r\ngarbage\r\n\r\nhi\r\n--") =
      .ok (str2bytes "a", FormValue.field (str2bytes "hi")) := by
  decide

/-- Claim C5 (refuted by this evaluation): a part whose
`Content-Disposition` has a `filename` attribute but no `name` attribute
does not fail: the regex `/name="([^;\x22]+)"/` cross-matches inside the
text `filename="f.txt"`, so the part parses successfully with the name
captured from the filename value. -/
theorem claimC5_theorem :
    parseContent
      (str2bytes "Content-Disposition: form-data; filename=\"f.txt\"\r\n\r\nDATA\r\n--") =
      .ok (str2bytes "f.txt",
        FormValue.file (str2bytes "f.txt") OCTET_STREAM (str2bytes "DATA")) := by
  decide

/-- Claim C6, counterexample: a part that carries a `filename` attribute
with empty value (`filename=""` — literally present in the header, as
the first conjunct shows) is classified as a Field, not a File, because
the regex `/filename="([^;\x22]+)"/` requires at least one character
between the quotes. -/
theorem claimC6_counterexample :
    (indexOfFrom (str2bytes "form-data; name=\"a\"; filename=\"\"")
      (str2bytes "filename=\"\"") 0).isSome = true ∧
    parseContent
      (str2bytes "Content-Disposition: form-data; name=\"a\"; filename=\"\"\r\n\r\nDATA\r\n--") =
      .ok (str2bytes "a", FormValue.field (str2bytes "DATA")) := by
  decide

/-- Claim C6 (amended): for a part whose `Content-Disposition` value
matches `filename="<value>"` with a non-empty value free of `"` and `;`,
the classifier produces a File whose data is exactly the raw body bytes
(and whose content type is the defaulted `content-type` header); when the
filename regex finds no match — which includes a present-but-empty
`filename=""` — it produces a Field. -/
theorem claimC6_theorem (hs : Headers) (body cd n : Bytes)
    (h1 : getHeader hs contentDispositionKey = some cd)
    (h2 : matchAttr NAME_PAT cd = some n) :
    (∀ f, matchAttr FILENAME_PAT cd = some f →
        classifyJS hs body = .ok (n, FormValue.file f (contentTypeOf hs) body)) ∧
    (matchAttr FILENAME_PAT cd = none →
        classifyJS hs body = .ok (n, FormValue.field body)) := by
  constructor
  · intro f hf
    simp [classifyJS, execAttr, h1, h2, hf]
  · intro hf
    simp [classifyJS, execAttr, h1, h2, hf]

/-- Claim C6, witness: the amended claim applied to one concrete header
set with a non-empty filename attribute. -/
theorem claimC6_witness :
    classifyJS
      [(contentDispositionKey, some (str2bytes "form-data; name=\"a\"; filename=\"pic\""))]
      (str2bytes "DD") =
    .ok (str2bytes "a",
      FormValue.file (str2bytes "pic")
        (contentTypeOf
          [(contentDispositionKey, some (str2bytes "form-data; name=\"a\"; filename=\"pic\""))])
        (str2bytes "DD")) :=
  (claimC6_theorem
    [(contentDispositionKey, some (str2bytes "form-data; name=\"a\"; filename=\"pic\""))]
    (str2bytes "DD")
    (str2bytes "form-data; name=\"a\"; filename=\"pic\"")
    (str2bytes "a") (by decide) (by decide)).1 (str2bytes "pic") (by decide)

/-- Claim C7, counterexample: on a concrete raw part (of exactly the
shape the locator emits, ending with one CRLF plus the two dashes of the
next delimiter), `parseContent` strips four tail bytes, not the two
bytes of a single CRLF that the claim demands: the claimed body would be
`Hello\r\n`, the code produces `Hello`. -/
theorem claimC7_counterexample :
    parseContent (str2bytes "Content-Disposition: form-data; name=\"a\"\r\n\r\nHello\r\n--") =
      .ok (str2bytes "a", FormValue.field (str2bytes "Hello")) ∧
    specSplitBodyOf (str2bytes "Content-Disposition: form-data; name=\"a\"\r\n\r\nHello\r\n--") =
      some (str2bytes "Hello\r\n") ∧
    str2bytes "Hello" ≠ str2bytes "Hello\r\n" := by
  decide

/-- Claim C7 (amended): the splitter strips four tail bytes — the CRLF
of framing plus the two delimiter dashes that the locator's ranges
include.  On a raw part of the shape `head ++ CRLF CRLF ++ content ++
CRLF ++ "--"`, whose first separator occurrence is right after `head`,
the body block handed to classification is exactly `content`: the
separator, exactly one CRLF of framing and the two leaked dashes are
excluded, nothing else. -/
theorem claimC7_theorem (h c : Bytes)
    (hidx : indexOfFrom (h ++ DOUBLE_CRLF ++ c ++ [13, 10, 45, 45])
      DOUBLE_CRLF 0 = some h.length) :
    parseContent (h ++ DOUBLE_CRLF ++ c ++ [13, 10, 45, 45]) =
      classifyJS (jsHeaders h) c := by
  unfold parseContent
  simp only [hidx]
  rw [jsSlice_head, jsSlice_body]

/-- Claim C7, witness: the amended claim applied to one concrete raw
part. -/
theorem claimC7_witness :
    indexOfFrom (str2bytes "H: v" ++ DOUBLE_CRLF ++ str2bytes "ok" ++ [13, 10, 45, 45])
      DOUBLE_CRLF 0 = some (str2bytes "H: v").length ∧
    parseContent (str2bytes "H: v" ++ DOUBLE_CRLF ++ str2bytes "ok" ++ [13, 10, 45, 45]) =
      classifyJS (jsHeaders (str2bytes "H: v")) (str2bytes "ok") :=
  ⟨by decide, claimC7_theorem (str2bytes "H: v") (str2bytes "ok") (by decide)⟩

/-- Claim C8, counterexample: on a buffer whose first delimiter line is
followed by a CRLF, the first emitted part still begins with that CRLF —
the scan start skips only the delimiter bytes `--` + boundary, not the
line terminator after them. -/
theorem claimC8_counterexample :
    splitContentParts (str2bytes "--B\r\nxyB") (str2bytes "B") = [str2bytes "\r\nxy"] ∧
    str2bytes "\r\nxy" ≠ str2bytes "xy" := by
  decide

/-- Claim C8 (amended): the first part's byte range begins immediately
after the delimiter bytes `--` + boundary only — at
`i + boundary.length + 2` when the delimiter occurs at `i` — and the
CRLF that follows the delimiter line is not skipped; it stays at the
head of the part (and is later tolerated by the header parser as an
empty leading line). -/
theorem claimC8_theorem (buffer b : Bytes) (i e : Nat) (hb : b ≠ [])
    (h1 : indexOfFrom buffer ([45, 45] ++ b) 0 = some i)
    (h2 : indexOfFrom buffer b (i + b.length + 2) = some e)
    (h3 : i + b.length + 2 < e) :
    (splitContentParts buffer b).head? =
      some ((buffer.drop (i + b.length + 2)).take (e - (i + b.length + 2))) := by
  have hlenb : 2 ≤ buffer.length := by
    have hx := (indexOfFrom_some h1).2
    simp at hx
    omega
  obtain ⟨rest, hrest⟩ :=
    splitLoopFuel_isSome buffer b hb buffer.length (e + b.length) (by omega) (by omega)
  unfold splitContentParts splitContentPartsOpt
  simp only [h1]
  rw [splitLoopFuel_succ, h2]
  simp only [h3, if_true, hrest]
  rfl

/-- Claim C8, witness: the amended claim applied to one concrete buffer
with a CRLF after the delimiter line. -/
theorem claimC8_witness :
    (str2bytes "B" ≠ []) ∧
    (splitContentParts (str2bytes "--B\r\nxyB") (str2bytes "B")).head? =
      some (((str2bytes "--B\r\nxyB").drop (0 + (str2bytes "B").length + 2)).take
        (7 - (0 + (str2bytes "B").length + 2))) :=
  ⟨by decide,
    claimC8_theorem (str2bytes "--B\r\nxyB") (str2bytes "B") 0 7
      (by decide) (by decide) (by decide) (by decide)⟩

/-- Claim C9, counterexample: a zero-byte gap between consecutive
boundary occurrences is not emitted as an empty part; the while guard
`end > start` fails and the scan stops, dropping all later parts (first
conjunct: the buffer still has `hello` between two later delimiters).
With two adjacent full delimiters `--B--B` the locator does not emit an
empty range either: it emits the two leaked dashes `--` as a part and
continues (second conjunct). -/
theorem claimC9_counterexample :
    splitContentParts (str2bytes "--BBhelloB") (str2bytes "B") = [] ∧
    splitContentParts (str2bytes "--B--BhelloB") (str2bytes "B") =
      [str2bytes "--", str2bytes "hello"] := by
  decide

/-- Claim C9 (amended): when the next boundary occurrence lies exactly
at the scan position (a zero-byte gap), the loop terminates immediately:
no empty part is emitted and no later parts are scanned — the whole
result is the parts accumulated before, here none. -/
theorem claimC9_theorem (buffer b : Bytes) (i : Nat)
    (h1 : indexOfFrom buffer ([45, 45] ++ b) 0 = some i)
    (h2 : indexOfFrom buffer b (i + b.length + 2) = some (i + b.length + 2)) :
    splitContentParts buffer b = [] := by
  unfold splitContentParts splitContentPartsOpt
  simp only [h1]
  rw [splitLoopFuel_succ, h2]
  simp

/-- Claim C9, witness: the amended claim applied to a concrete buffer
with a boundary occurrence immediately at the scan start. -/
theorem claimC9_witness :
    indexOfFrom (str2bytes "--BBzz") ([45, 45] ++ str2bytes "B") 0 = some 0 ∧
    indexOfFrom (str2bytes "--BBzz") (str2bytes "B")
      (0 + (str2bytes "B").length + 2) = some (0 + (str2bytes "B").length + 2) ∧
    splitContentParts (str2bytes "--BBzz") (str2bytes "B") = [] :=
  ⟨by decide, by decide,
    claimC9_theorem (str2bytes "--BBzz") (str2bytes "B") 0 (by decide) (by decide)⟩

/-- Claim C10 (confirmed): for every buffer and non-empty boundary the
scanning loop of `splitContentParts` terminates within
`buffer.length + 1` iterations — the fuelled loop never reaches its
out-of-fuel state, because each iteration that emits a part moves the
scan position strictly forward (new start = end + boundary length >
end > previous start) while occurrences stay inside the buffer. -/
theorem claimC10_theorem (buffer b : Bytes) (hb : b ≠ []) :
    ∃ ps, splitContentPartsOpt buffer b = some ps := by
  unfold splitContentPartsOpt
  exact splitLoopFuel_isSome buffer b hb (buffer.length + 1) _ (by omega) (by omega)

/-- Claim C10, witness: termination at one concrete buffer and
boundary. -/
theorem claimC10_witness :
    (str2bytes "B" ≠ []) ∧
    ∃ ps, splitContentPartsOpt (str2bytes "--Bx") (str2bytes "B") = some ps :=
  ⟨by decide, claimC10_theorem (str2bytes "--Bx") (str2bytes "B") (by decide)⟩
